import Mathlib

/-!
Verification of the boGO schema-to-code generator.

The Go sources are shallowly embedded: Go strings become `List Char`,
pure string functions become Lean functions mirroring the source line by
line, and the regular expressions used by the parser are embedded as
explicit left-to-right scanning functions with maximal-munch semantics
(equivalent to RE2 on the patterns that occur).  File and process
effects of the orchestrator are modelled as an explicit effect trace.
-/

namespace BoGo

/-- Go strings are modelled as lists of characters. -/
abbrev Str := List Char

/-- Conversion from a Lean string literal to the model type. -/
def str (s : String) : Str := s.toList

/-- Go strings.ToUpper restricted to the ASCII inputs the generator handles. -/
def upper (s : Str) : Str := s.map Char.toUpper

/-- Go strings.ToLower restricted to the ASCII inputs the generator handles. -/
def lower (s : Str) : Str := s.map Char.toLower

/-- Whitespace as recognized by Go unicode.IsSpace (Latin-1 range). -/
def goIsSpace (c : Char) : Bool :=
  c = ' ' || c = '\t' || c = '\n' || c = Char.ofNat 11 || c = Char.ofNat 12 ||
  c = '\r' || c = Char.ofNat 0x85 || c = Char.ofNat 0xA0

/-- Whitespace matched by the RE2 character class in the source regexes. -/
def reIsSpace (c : Char) : Bool :=
  c = ' ' || c = '\t' || c = '\n' || c = Char.ofNat 11 || c = Char.ofNat 12 || c = '\r'

/-- Word characters matched by RE2 in the create-table regex. -/
def isWordChar (c : Char) : Bool := c.isAlphanum || c = '_'

/-- Boolean test that `pat` is a prefix of `s` (first argument is the pattern). -/
def leadsWith : Str → Str → Bool
  | [], _ => true
  | _ :: _, [] => false
  | c :: p, d :: s => c == d && leadsWith p s

/-- Go strings.HasPrefix. -/
def startsWith (s pat : Str) : Bool := leadsWith pat s

/-- Go strings.HasSuffix. -/
def endsWith (s pat : Str) : Bool := leadsWith pat.reverse s.reverse

/-- Go strings.Contains: `pat` occurs as a contiguous substring of `s`. -/
def containsSub : Str → Str → Bool
  | [], pat => pat.isEmpty
  | c :: rest, pat => leadsWith pat (c :: rest) || containsSub rest pat

/-- Go strings.TrimSpace. -/
def trimSpace (s : Str) : Str :=
  ((s.dropWhile goIsSpace).reverse.dropWhile goIsSpace).reverse

/-- Go strings.TrimSuffix. -/
def trimSuffixStr (s pat : Str) : Str :=
  if endsWith s pat then s.take (s.length - pat.length) else s

/-- Accumulator pass of Go strings.Fields. -/
def wordsAux : Str → Str → List Str
  | [], acc => if acc.isEmpty then [] else [acc.reverse]
  | c :: rest, acc =>
    if goIsSpace c then
      if acc.isEmpty then wordsAux rest [] else acc.reverse :: wordsAux rest []
    else wordsAux rest (c :: acc)

/-- Go strings.Fields: split around runs of whitespace, dropping empties. -/
def goFields (s : Str) : List Str := wordsAux s []

/-- Go strings.Split with a one-character separator; empty segments kept. -/
def splitOnChar (sep : Char) : Str → List Str
  | [] => [[]]
  | c :: rest =>
    if c = sep then [] :: splitOnChar sep rest
    else (splitOnChar sep rest).modifyHead (fun seg => c :: seg)

/-! Embedded regular expressions.

The source uses two RE2 patterns.  Both are simple enough that
left-to-right position scanning with maximal munch is exactly the RE2
leftmost-match semantics, so they are embedded as scanners. -/

/-- Attempt to match the default-value regex at the start of `s`. -/
def matchDefaultAt (s : Str) : Option Str :=
  if leadsWith (str "DEFAULT") (upper s) then
    let rest := s.drop 7
    if (rest.takeWhile reIsSpace).isEmpty then none
    else
      let afterWs := rest.dropWhile reIsSpace
      let tok := afterWs.takeWhile (fun c => !(reIsSpace c) && c ≠ ',')
      if tok.isEmpty then none else some tok
  else none

/-- Leftmost capture of the default-value regex, or empty if no match.
Mirrors the FindStringSubmatch call in parseColumnDefinition, where a
missing match leaves the default value as the empty string. -/
def findDefault : Str → Str
  | [] => []
  | c :: rest =>
    match matchDefaultAt (c :: rest) with
    | some tok => tok
    | none => findDefault rest

/-- Attempt to match the create-table regex at the start of `s`,
returning the captured table name. -/
def matchCreateAt (s : Str) : Option Str :=
  if leadsWith (str "CREATE") (upper s) then
    let r1 := s.drop 6
    if (r1.takeWhile reIsSpace).isEmpty then none
    else
      let r2 := r1.dropWhile reIsSpace
      if leadsWith (str "TABLE") (upper r2) then
        let r3 := r2.drop 5
        if (r3.takeWhile reIsSpace).isEmpty then none
        else
          let r4 := r3.dropWhile reIsSpace
          let name := r4.takeWhile isWordChar
          if name.isEmpty then none
          else
            match (r4.drop name.length).dropWhile reIsSpace with
            | '(' :: _ => some name
            | _ => none
      else none
  else none

/-- Leftmost match of the create-table regex over a whole line. -/
def findCreateTable : Str → Option Str
  | [] => none
  | c :: rest =>
    match matchCreateAt (c :: rest) with
    | some n => some n
    | none => findCreateTable rest

/-! Data model: the Table and Column structures of the generator. -/

/-- Column mirrors the Column struct of the Go source. -/
structure Column where
  name : Str
  type : Str
  isPrimaryKey : Bool
  isNullable : Bool
  defaultValue : Str
  goType : Str
  gormTag : Str
  jsonTag : Str
deriving DecidableEq, Repr

/-- Table mirrors the Table struct of the Go source. -/
structure Table where
  name : Str
  columns : List Column
deriving DecidableEq, Repr

/-- Constraint keywords checked by parseColumnDefinition, in source order. -/
def constraintKeywords : List Str :=
  [str "CONSTRAINT", str "PRIMARY KEY", str "FOREIGN KEY", str "UNIQUE",
   str "CHECK", str "INDEX"]

/-- Embedding of parseColumnDefinition from the schema parser. -/
def parseColumnDefinition (rawLine : Str) : Option Column :=
  let line := trimSuffixStr (trimSpace rawLine) (str ",")
  let lineUpper := upper line
  if constraintKeywords.any (fun kw => containsSub lineUpper kw) then none
  else
    match goFields line with
    | p0 :: p1 :: rest =>
      let columnType :=
        match rest with
        | p2 :: _ =>
          if upper p1 = str "DOUBLE" ∧ upper p2 = str "PRECISION" then
            str "DOUBLE PRECISION"
          else p1
        | [] => p1
      some { name := p0
             type := columnType
             isPrimaryKey := containsSub lineUpper (str "PRIMARY KEY")
             isNullable := !containsSub lineUpper (str "NOT NULL")
             defaultValue := findDefault line
             goType := []
             gormTag := []
             jsonTag := [] }
    | _ => none

/-- Leading upper-case alphabetic run, as extracted by the anchored
regex in generateGoFieldInfo. -/
def leadingAlpha (s : Str) : Str :=
  s.takeWhile (fun c => 'A' ≤ c && c ≤ 'Z')

/-- Fixed SQL-to-Go type switch of generateGoFieldInfo. -/
def mapSqlToGoType (baseType : Str) (isPK : Bool) : Str :=
  if baseType ∈ [str "INT", str "INTEGER", str "SERIAL", str "BIGSERIAL", str "BIGINT"] then
    if isPK then str "int64" else str "int64"
  else if baseType ∈ [str "VARCHAR", str "TEXT", str "CHAR"] then str "string"
  else if baseType ∈ [str "JSONB", str "JSON"] then str "[]string"
  else if baseType ∈ [str "BOOLEAN", str "BOOL"] then str "bool"
  else if baseType ∈ [str "TIMESTAMP", str "DATETIME"] then str "time.Time"
  else if baseType = str "DATE" then str "time.Time"
  else if baseType ∈ [str "DECIMAL", str "NUMERIC", str "FLOAT", str "REAL",
                      str "DOUBLE", str "DOUBLE PRECISION"] then str "float64"
  else if baseType = str "UUID" then str "string"
  else str "string"

/-- Embedding of generateGoFieldInfo: resolves the Go type and the two
struct tags of a parsed column. -/
def generateGoFieldInfo (column : Column) : Column :=
  let sqlType := upper column.type
  let baseType := leadingAlpha sqlType
  let goType := mapSqlToGoType baseType column.isPrimaryKey
  let columnNameLower := lower column.name
  let gormParts :=
    [str "column:" ++ columnNameLower]
    ++ (if column.isPrimaryKey then [str "primarykey"] else [])
    ++ (if !column.isNullable then [str "not null"] else [])
    ++ (if containsSub sqlType (str "JSONB") then [str "type:jsonb"]
        else if containsSub sqlType (str "JSON") then [str "type:json"] else [])
  { column with
      goType := goType
      gormTag := str "gorm:" ++ [Char.ofNat 34] ++ (List.intercalate (str ";") gormParts) ++ [Char.ofNat 34]
      jsonTag := str "json:" ++ [Char.ofNat 34] ++ column.name ++ str ",omitempty" ++ [Char.ofNat 34] }

/-! Schema parser state machine (parseSQLSchema).  The scanner loop of
the source is embedded as a fold over the list of input lines. -/

/-- Loop state of parseSQLSchema. -/
structure ParseState where
  tables : List Table
  current : Option Table
  inTableDefinition : Bool
deriving Repr

/-- Initial state of the parseSQLSchema loop. -/
def initState : ParseState := ⟨[], none, false⟩

/-- One iteration of the parseSQLSchema scanner loop. -/
def processLine (st : ParseState) (rawLine : Str) : ParseState :=
  let line := trimSpace rawLine
  if startsWith line (str "--") || startsWith line (str "/*") || line.isEmpty then st
  else
    match findCreateTable line with
    | some tableName =>
      { st with current := some ⟨tableName, []⟩, inTableDefinition := true }
    | none =>
      if st.inTableDefinition ∧ containsSub line (str ");") then
        match st.current with
        | some t => { tables := st.tables ++ [t], current := none, inTableDefinition := false }
        | none => { st with inTableDefinition := false }
      else if st.inTableDefinition ∧ st.current.isSome then
        match parseColumnDefinition line with
        | some col =>
          { st with current := st.current.map (fun t => { t with columns := t.columns ++ [col] }) }
        | none => st
      else st

/-- Embedding of parseSQLSchema: fold the scanner loop over the input
lines, then resolve Go field info for every parsed column.  File I/O
errors are outside the model; the input is the list of lines read. -/
def parseSQLSchema (lines : List Str) : List Table :=
  let final := lines.foldl processLine initState
  final.tables.map (fun t => { t with columns := t.columns.map generateGoFieldInfo })

/-! Identifier normalizer. -/

/-- Embedding of toCamelCase: lower the identifier, split on the
underscore, turn a whole segment id into ID, capitalize the rest. -/
def toCamelCase (s : Str) : Str :=
  let parts := splitOnChar '_' (lower s)
  (parts.map (fun p =>
    match p with
    | [] => []
    | c :: restP =>
      if c :: restP = str "id" then str "ID"
      else Char.toUpper c :: restP)).flatten

/-- Strip one trailing letter s, the entity-name heuristic each
generator applies to the camel-cased table name. -/
def singularize (s : Str) : Str :=
  if endsWith s (str "s") then s.dropLast else s

/-- Modelled from the spec: per-segment target-case conversion (a whole
segment id becomes ID, anything else has its first letter uppercased).
Used only to compare toCamelCase against the spec sentence. -/
def camelSegment (seg : Str) : Str :=
  match lower seg with
  | [] => []
  | c :: restP =>
    if c :: restP = str "id" then str "ID"
    else Char.toUpper c :: restP

/-! Domain-model and DTO generators.  The template bodies themselves
are external inputs, so each generator is embedded as the structured
content it computes and binds into its template: the struct name,
whether the shared base entity is embedded, and the ordered emitted
fields (field name and Go type). -/

/-- Column names skipped by the domain-model field loop. -/
def domainSkip (name : Str) : Bool :=
  lower name == str "created_at" || lower name == str "updated_at" ||
  lower name == str "deleted_at" || lower name == str "is_deleted"

/-- Column names skipped by the DTO field loop. -/
def dtoSkip (name : Str) : Bool :=
  lower name == str "id" || lower name == str "created_at" ||
  lower name == str "updated_at" || lower name == str "deleted_at" ||
  lower name == str "is_deleted"

/-- Content computed by generateDomainModel for one table. -/
structure DomainModel where
  structName : Str
  hasMetaField : Bool
  fields : List (Str × Str)
deriving DecidableEq, Repr

/-- Embedding of generateDomainModel: entity name via toCamelCase plus
the trailing-s strip, the MetaField embed when no explicit id column
exists, and the emitted fields in column order. -/
def generateDomainModel (t : Table) : DomainModel :=
  let structName := singularize (toCamelCase t.name)
  let hasID := t.columns.any (fun c => lower c.name == str "id")
  { structName := structName
    hasMetaField := !hasID
    fields := t.columns.filterMap (fun c =>
      if domainSkip c.name then none else some (toCamelCase c.name, c.goType)) }

/-- Content computed by generateDTO for one table. -/
structure DTOModel where
  structName : Str
  fields : List (Str × Str)
deriving DecidableEq, Repr

/-- Embedding of generateDTO: the DTO always starts with a hardcoded
ID int64 field, then the table columns minus the meta-contract names. -/
def generateDTO (t : Table) : DTOModel :=
  let structName := singularize (toCamelCase t.name)
  { structName := structName
    fields := (str "ID", str "int64") ::
      t.columns.filterMap (fun c =>
        if dtoSkip c.name then none else some (toCamelCase c.name, c.goType)) }

/-! Migration synthesizer (goose-generator). -/

/-- Schema-qualified table name used throughout the migration code. -/
def qualifiedTableName (schema tableName : Str) : Str :=
  if schema.isEmpty then tableName else schema ++ str "." ++ tableName

/-- Embedding of mapGoTypeToPGType, the reverse type mapping used when
a column carries no original SQL type. -/
def mapGoTypeToPGType (goType columnName : Str) : Str :=
  let lowerName := lower columnName
  if lowerName == str "id" then str "BIGSERIAL"
  else if endsWith lowerName (str "_id") &&
          (goType == str "int64" || goType == str "uint" || goType == str "int") then
    str "BIGINT"
  else if lowerName == str "created_at" || lowerName == str "updated_at" ||
          lowerName == str "deleted_at" then str "TIMESTAMPTZ"
  else if containsSub lowerName (str "timestamp") || containsSub lowerName (str "_ts") ||
          lowerName == str "key_time" then str "BIGINT"
  else if lowerName == str "state" && (goType == str "string" || goType == str "[]byte") then
    str "JSONB"
  else if goType == str "[]int" then str "JSONB"
  else if goType == str "string" then
    if containsSub lowerName (str "type") || lowerName == str "activity_flag" ||
       lowerName == str "awake_state" || lowerName == str "light_state" ||
       lowerName == str "deep_state" || lowerName == str "rem_state" then str "INTEGER"
    else if containsSub lowerName (str "name") ||
            (containsSub lowerName (str "id") && !endsWith lowerName (str "_id")) then str "TEXT"
    else str "TEXT"
  else if goType == str "int" || goType == str "int32" then str "INTEGER"
  else if goType == str "int64" then str "BIGINT"
  else if goType == str "float32" then str "REAL"
  else if goType == str "float64" then str "DOUBLE PRECISION"
  else if goType == str "bool" then str "BOOLEAN"
  else if goType == str "time.Time" then str "TIMESTAMPTZ"
  else if goType == str "[]byte" then str "BYTEA"
  else if containsSub lowerName (str "count") || containsSub lowerName (str "battery") ||
          containsSub lowerName (str "mins") || containsSub lowerName (str "hr") ||
          containsSub lowerName (str "pp") || containsSub lowerName (str "idx") then
    str "INTEGER"
  else if containsSub lowerName (str "distance") || containsSub lowerName (str "calories") ||
          containsSub lowerName (str "threshold") || containsSub lowerName (str "psv") ||
          containsSub lowerName (str "conv_") || containsSub lowerName (str "pwm") ||
          containsSub lowerName (str "rr") || containsSub lowerName (str "psf") ||
          containsSub lowerName (str "lf") || containsSub lowerName (str "hf") ||
          containsSub lowerName (str "rmssd") || containsSub lowerName (str "tatpim") ||
          containsSub lowerName (str "bmr") || containsSub lowerName (str "sdhr") then
    str "DOUBLE PRECISION"
  else str "TEXT"

/-- Embedding of generateColumnDefinition: one SQL column definition,
from the original SQL type when present. -/
def generateColumnDefinition (col : Column) : Str :=
  let pgType := if col.type.isEmpty then mapGoTypeToPGType col.goType col.name else col.type
  col.name ++ str " " ++ pgType
  ++ (if col.isPrimaryKey then str " PRIMARY KEY" else [])
  ++ (if !col.isNullable && !col.isPrimaryKey then str " NOT NULL" else [])
  ++ (if !col.defaultValue.isEmpty && !col.isPrimaryKey then
        str " DEFAULT " ++ col.defaultValue else [])

/-- Table has an explicitly declared column of the given lowercase name. -/
def hasColumnNamed (t : Table) (n : Str) : Bool :=
  t.columns.any (fun c => lower c.name == n)

/-- Opening of the CREATE TABLE statement: the header line plus the
synthesized identity column when the table declares none. -/
def createTableHeader (t : Table) (schema : Str) : Str :=
  str "CREATE TABLE IF NOT EXISTS " ++ qualifiedTableName schema t.name ++ str " (\n"
  ++ (if !hasColumnNamed t (str "id") then str "    id BIGSERIAL PRIMARY KEY,\n" else [])

/-- Declared-column section of the CREATE TABLE statement: one indented
definition per declared column, in source order. -/
def createTableColumnsBlock (t : Table) : Str :=
  (t.columns.map (fun c => str "    " ++ generateColumnDefinition c ++ str ",\n")).flatten

/-- Missing meta-contract timestamp columns appended after the declared
columns. -/
def createTableMetaTail (t : Table) : Str :=
  (if !hasColumnNamed t (str "created_at") then str "    created_at TIMESTAMPTZ DEFAULT NOW(),\n" else [])
  ++ (if !hasColumnNamed t (str "updated_at") then str "    updated_at TIMESTAMPTZ DEFAULT NOW(),\n" else [])
  ++ (if !hasColumnNamed t (str "deleted_at") then str "    deleted_at TIMESTAMPTZ,\n" else [])

/-- Embedding of generateCreateTable: header, synthesized identity
column, every declared column in order, then the missing meta-contract
columns in fixed positions, with the trailing comma stripped when the
soft-delete flag line is not appended. -/
def generateCreateTable (t : Table) (schema : Str) : Str :=
  let sql5 := createTableHeader t schema ++ createTableColumnsBlock t ++ createTableMetaTail t
  (if !hasColumnNamed t (str "is_deleted") then
     sql5 ++ str "    is_deleted BOOLEAN DEFAULT FALSE\n"
   else trimSuffixStr sql5 (str ",\n") ++ str "\n") ++ str ");"

/-- Index heuristic of generateIndexes and generateDropIndexes. -/
def indexWorthy (col : Column) : Bool :=
  containsSub (lower col.name) (str "user_id") ||
  (containsSub (lower col.name) (str "_id") && !col.isPrimaryKey) ||
  lower col.name == str "timestamp" || lower col.name == str "key_time" ||
  lower col.name == str "start_ts" || lower col.name == str "end_ts"

/-- Embedding of generateIndexes: one CREATE INDEX statement per
column the heuristic selects. -/
def generateIndexes (t : Table) (schema : Str) : Str :=
  let tableName := qualifiedTableName schema t.name
  let schemaDot := if schema.isEmpty then ([] : Str) else schema ++ str "."
  (t.columns.filterMap (fun c =>
    if indexWorthy c then
      some (str "CREATE INDEX IF NOT EXISTS " ++ schemaDot ++ str "idx_" ++ t.name ++
            str "_" ++ c.name ++ str " ON " ++ tableName ++ str "(" ++ c.name ++ str ");\n")
    else none)).flatten

/-- Embedding of generateDropIndexes. -/
def generateDropIndexes (t : Table) (schema : Str) : Str :=
  let schemaDot := if schema.isEmpty then ([] : Str) else schema ++ str "."
  (t.columns.filterMap (fun c =>
    if indexWorthy c then
      some (str "DROP INDEX IF EXISTS " ++ schemaDot ++ str "idx_" ++ t.name ++
            str "_" ++ c.name ++ str ";\n")
    else none)).flatten

/-- One DROP TABLE line, as written by the loop in generateGooseMigration. -/
def dropTableLine (schema : Str) (t : Table) : Str :=
  str "DROP TABLE IF EXISTS " ++ qualifiedTableName schema t.name ++ str ";\n"

/-- Embedding of the drop-reversal step of generateGooseMigration:
trim, split on newlines, and rewrite the non-empty lines last first. -/
def reverseNonEmptyLines (s : Str) : Str :=
  let lineList := splitOnChar '\n' (trimSpace s)
  (lineList.reverse.filterMap (fun l =>
    if l.isEmpty then none else some (l ++ str "\n"))).flatten

/-- Binding set computed by generateGooseMigration for the migration
template (timestamped filename and file write are external effects). -/
structure GooseMigration where
  schemaCreation : Str
  tableCreations : Str
  indexCreations : Str
  indexDrops : Str
  tableDrops : Str
  schemaDrops : Str
deriving DecidableEq, Repr

/-- Embedding of generateGooseMigration: the six template bindings, in
the order the source builds them. -/
def generateGooseMigration (tables : List Table) (schema : Str) : GooseMigration :=
  let schemaCreation :=
    if schema.isEmpty then ([] : Str)
    else str "CREATE SCHEMA IF NOT EXISTS " ++ [Char.ofNat 34] ++ schema ++ [Char.ofNat 34] ++ str ";\n\n"
  let tableCreations := (tables.map (fun t => generateCreateTable t schema ++ str "\n")).flatten
  let tableDropsRaw := (tables.map (dropTableLine schema)).flatten
  let indexCreations := (tables.map (fun t => generateIndexes t schema)).flatten
  let indexDrops := (tables.map (fun t => generateDropIndexes t schema)).flatten
  let schemaDrops :=
    if schema.isEmpty then ([] : Str)
    else str "DROP SCHEMA IF EXISTS " ++ [Char.ofNat 34] ++ schema ++ [Char.ofNat 34] ++ str " CASCADE;\n"
  { schemaCreation := schemaCreation
    tableCreations := tableCreations
    indexCreations := indexCreations
    indexDrops := indexDrops
    tableDrops := reverseNonEmptyLines tableDropsRaw
    schemaDrops := schemaDrops }

/-! Template engine. -/

/-- Scanning pass of Go strings.ReplaceAll for a non-empty pattern
decomposed as its head and tail. -/
def replaceAllAux (p : Char) (pr rep : Str) : Str → Str
  | [] => []
  | c :: rest =>
    if startsWith (c :: rest) (p :: pr) then
      rep ++ replaceAllAux p pr rep (rest.drop pr.length)
    else c :: replaceAllAux p pr rep rest
termination_by s => s.length
decreasing_by
  all_goals simp only [List.length_drop, List.length_cons]
  all_goals omega

/-- Go strings.ReplaceAll.  An empty pattern inserts the replacement
before every character and at the end, as in Go. -/
def replaceAll (s pat rep : Str) : Str :=
  match pat with
  | [] => rep ++ (s.map (fun c => c :: rep)).flatten
  | p :: pr => replaceAllAux p pr rep s

/-- Placeholder token form used by the template engine. -/
def placeholder (key : Str) : Str := str "<" ++ key ++ str ">"

/-- Embedding of replaceTemplateVariables: one ReplaceAll per binding.
Go map iteration order is unspecified, so the bindings are an arbitrary
ordered association list. -/
def replaceTemplateVariables (template : Str) (bindings : List (Str × Str)) : Str :=
  bindings.foldl (fun result kv => replaceAll result (placeholder kv.1) kv.2) template

/-- Key well-formedness: a placeholder key contains no angle bracket. -/
def bracketFree (s : Str) : Prop := '<' ∉ s ∧ '>' ∉ s

instance (s : Str) : Decidable (bracketFree s) := by
  unfold bracketFree; infer_instance

/-! Orchestration (createHexagonalArchitecture).  Directory creation,
file generation and toolchain invocation are external effects; the
embedding records which of them the control flow reaches. -/

/-- External effects the orchestrator can perform, in program order. -/
inductive Effect where
  | createDirectoryStructure
  | generateAllFiles
  | formatGeneratedFiles
  | initializeGoModule
deriving DecidableEq, Repr

/-- Error built when the parsed schema has no tables. -/
def noTablesMessage (sqlSchemaFile : Str) : Str :=
  str "❌ No tables found in SQL schema '" ++ sqlSchemaFile ++
  str "'.\n💡 Please ensure your SQL file contains valid CREATE TABLE statements.\n📋 Example:\n   CREATE TABLE users (\n       id BIGSERIAL PRIMARY KEY,\n       name VARCHAR(255) NOT NULL,\n       email VARCHAR(255) UNIQUE NOT NULL,\n       created_at TIMESTAMPTZ DEFAULT NOW()\n   );"

/-- Embedding of createHexagonalArchitecture on an already-read input:
parse, validate non-emptiness before any directory or file is created,
then run the generation steps.  The returned list is the trace of
external effects reached on the success path. -/
def runHexagonal (sqlSchemaFile : Str) (lines : List Str) :
    List Effect × Except Str Unit :=
  let tables := parseSQLSchema lines
  if tables.length = 0 then ([], Except.error (noTablesMessage sqlSchemaFile))
  else
    ([Effect.createDirectoryStructure, Effect.generateAllFiles,
      Effect.formatGeneratedFiles, Effect.initializeGoModule], Except.ok ())

/-! Concrete inputs for the end-to-end scenarios and auxiliary
definitions used by the statements below. -/

/-- Scenario input: one users table with id, name, email, created_at. -/
def usersLines : List Str :=
  [str "CREATE TABLE users (",
   str "    id BIGSERIAL PRIMARY KEY,",
   str "    name VARCHAR(255) NOT NULL,",
   str "    email VARCHAR(255) UNIQUE NOT NULL,",
   str "    created_at TIMESTAMPTZ DEFAULT NOW()",
   str ");"]

/-- Scenario input: accounts, then sessions with an account_id column. -/
def accountsSessionsLines : List Str :=
  [str "CREATE TABLE accounts (",
   str "    id BIGSERIAL PRIMARY KEY,",
   str "    name VARCHAR(255) NOT NULL",
   str ");",
   str "",
   str "CREATE TABLE sessions (",
   str "    id BIGSERIAL PRIMARY KEY,",
   str "    account_id BIGINT NOT NULL,",
   str "    created_at TIMESTAMPTZ DEFAULT NOW()",
   str ");"]

/-- Base types the forward type switch recognizes, collected from the
cases of mapSqlToGoType; everything else takes the string fallback. -/
def recognizedBaseTypes : List Str :=
  [str "INT", str "INTEGER", str "SERIAL", str "BIGSERIAL", str "BIGINT",
   str "VARCHAR", str "TEXT", str "CHAR", str "JSONB", str "JSON",
   str "BOOLEAN", str "BOOL", str "TIMESTAMP", str "DATETIME", str "DATE",
   str "DECIMAL", str "NUMERIC", str "FLOAT", str "REAL", str "DOUBLE",
   str "DOUBLE PRECISION", str "UUID"]

/-- Fresh column carrying only a name and a raw SQL type, as built by
the parser before field-info resolution. -/
def mkColumn (name type : String) : Column :=
  { name := str name, type := str type, isPrimaryKey := false, isNullable := true,
    defaultValue := [], goType := [], gormTag := [], jsonTag := [] }

/-- Newline-separated join of drop-statement bodies, the intermediate
form the drop-reversal proof factors the migration string through. -/
def joinSepNl : List Str → Str
  | [] => []
  | [b] => b
  | b :: bs => b ++ '\n' :: joinSepNl bs

/-- Body of one DROP TABLE line, without the trailing newline. -/
def dropTableBody (schema : Str) (t : Table) : Str :=
  str "DROP TABLE IF EXISTS " ++ qualifiedTableName schema t.name ++ str ";"

/-- String is empty or carries the given suffix; closure property used
to track trailing commas through the CREATE TABLE assembly. -/
def endsIn (p x : Str) : Prop := x = [] ∨ ∃ y, x = y ++ p

/-! Supporting lemmas. -/

set_option maxRecDepth 40000

theorem leadsWith_iff (p : Str) : ∀ s, leadsWith p s = true ↔ ∃ d, s = p ++ d := by
  induction p with
  | nil => intro s; simp [leadsWith]
  | cons c p ih =>
    intro s
    cases s with
    | nil =>
      simp [leadsWith]
    | cons d rest =>
      constructor
      · intro h
        have h' := h
        simp only [leadsWith, Bool.and_eq_true, beq_iff_eq] at h'
        obtain ⟨rfl, h2⟩ := h'
        obtain ⟨d', rfl⟩ := (ih rest).mp h2
        exact ⟨d', rfl⟩
      · rintro ⟨d', hd⟩
        cases hd
        show leadsWith (c :: p) (c :: (p ++ d')) = true
        simp [leadsWith, (ih (p ++ d')).mpr ⟨d', rfl⟩]

theorem leadsWith_append_self (a b : Str) : leadsWith a (a ++ b) = true :=
  (leadsWith_iff a (a ++ b)).mpr ⟨b, rfl⟩

theorem singularize_of_not_s (s : Str) (h : endsWith s (str "s") = false) :
    singularize s = s := by
  unfold singularize
  rw [h]
  rfl

theorem flatten_map_decomp {α β : Type} (f : β → List α) :
    ∀ (l : List β) (b : β), b ∈ l →
    ∃ l₁ l₂, (l.map f).flatten =
      (l₁.map f).flatten ++ f b ++ (l₂.map f).flatten ∧ l = l₁ ++ b :: l₂ := by
  intro l b hb
  induction l with
  | nil => cases hb
  | cons hd tl ih =>
    rcases List.mem_cons.mp hb with rfl | hb
    · exact ⟨[], tl, by simp⟩
    · obtain ⟨l₁, l₂, h1, h2⟩ := ih hb
      refine ⟨hd :: l₁, l₂, ?_, by rw [h2]; rfl⟩
      simp only [List.map_cons, List.flatten_cons, h1]
      simp [List.append_assoc]

theorem parseColumnDefinition_no_pk (line : Str) (col : Column)
    (h : parseColumnDefinition line = some col) : col.isPrimaryKey = false := by
  unfold parseColumnDefinition at h
  by_cases hg : constraintKeywords.any
      (fun kw => containsSub (upper (trimSuffixStr (trimSpace line) (str ","))) kw) = true
  · simp [hg] at h
  · simp only [Bool.not_eq_true] at hg
    simp only [hg, Bool.false_eq_true, if_false] at h
    have hpk : containsSub (upper (trimSuffixStr (trimSpace line) (str ","))) (str "PRIMARY KEY") = false := by
      have hmem : (str "PRIMARY KEY") ∈ constraintKeywords := by decide
      by_contra hc
      simp only [Bool.not_eq_false] at hc
      have : constraintKeywords.any
          (fun kw => containsSub (upper (trimSuffixStr (trimSpace line) (str ","))) kw) = true :=
        List.any_eq_true.mpr ⟨_, hmem, hc⟩
      rw [this] at hg
      cases hg
    rcases hf : goFields (trimSuffixStr (trimSpace line) (str ",")) with _ | ⟨p0, _ | ⟨p1, rest⟩⟩
    · rw [hf] at h; cases h
    · rw [hf] at h; cases h
    · rw [hf] at h
      cases h
      exact hpk

theorem endsIn_append (p a b : Str) (ha : endsIn p a) (hb : endsIn p b) :
    endsIn p (a ++ b) := by
  rcases hb with rfl | ⟨y, rfl⟩
  · simpa using ha
  · right
    exact ⟨a ++ y, by simp⟩

theorem endsIn_of_suffix (p y : Str) : endsIn p (y ++ p) := Or.inr ⟨y, rfl⟩

theorem endsIn_nil (p : Str) : endsIn p [] := Or.inl rfl

theorem endsIn_flatten (p : Str) (l : List Str) (h : ∀ x ∈ l, endsIn p x) :
    endsIn p l.flatten := by
  induction l with
  | nil => exact endsIn_nil p
  | cons hd tl ih =>
    rw [List.flatten_cons]
    exact endsIn_append p hd tl.flatten (h hd (by simp)) (ih (fun x hx => h x (by simp [hx])))

theorem endsIn_columnsBlock (t : Table) : endsIn (str ",\n") (createTableColumnsBlock t) := by
  unfold createTableColumnsBlock
  apply endsIn_flatten
  intro x hx
  obtain ⟨c, _, rfl⟩ := List.mem_map.mp hx
  exact Or.inr ⟨str "    " ++ generateColumnDefinition c, by simp⟩

theorem endsIn_metaTail (t : Table) : endsIn (str ",\n") (createTableMetaTail t) := by
  unfold createTableMetaTail
  apply endsIn_append
  · apply endsIn_append
    · split
      · exact Or.inr ⟨str "    created_at TIMESTAMPTZ DEFAULT NOW()", by decide⟩
      · exact endsIn_nil _
    · split
      · exact Or.inr ⟨str "    updated_at TIMESTAMPTZ DEFAULT NOW()", by decide⟩
      · exact endsIn_nil _
  · split
    · exact Or.inr ⟨str "    deleted_at TIMESTAMPTZ", by decide⟩
    · exact endsIn_nil _

theorem trimSuffixStr_append (x p : Str) : trimSuffixStr (x ++ p) p = x := by
  unfold trimSuffixStr endsWith
  rw [List.reverse_append, leadsWith_append_self]
  simp only [if_true, List.length_append]
  have h : x.length + p.length - p.length = x.length := by omega
  rw [h, List.take_left]

-- migration emits every declared column

theorem createTable_emits_column (t : Table) (c : Column) (schema : Str)
    (hc : c ∈ t.columns) :
    ∃ pre post, generateCreateTable t schema =
      pre ++ (str "    " ++ generateColumnDefinition c) ++ post := by
  obtain ⟨l₁, l₂, hdec, -⟩ :=
    flatten_map_decomp (fun c => str "    " ++ generateColumnDefinition c ++ str ",\n")
      t.columns c hc
  have hblock : createTableColumnsBlock t =
      (l₁.map (fun c => str "    " ++ generateColumnDefinition c ++ str ",\n")).flatten
      ++ (str "    " ++ generateColumnDefinition c ++ str ",\n")
      ++ (l₂.map (fun c => str "    " ++ generateColumnDefinition c ++ str ",\n")).flatten := by
    unfold createTableColumnsBlock
    exact hdec
  set A := (l₁.map (fun c => str "    " ++ generateColumnDefinition c ++ str ",\n")).flatten with hA
  set B := (l₂.map (fun c => str "    " ++ generateColumnDefinition c ++ str ",\n")).flatten with hB
  set H := createTableHeader t schema with hH
  set M := createTableMetaTail t with hM
  set chunkNC := str "    " ++ generateColumnDefinition c with hchunk
  unfold generateCreateTable
  simp only []
  rw [hblock]
  by_cases hid : !hasColumnNamed t (str "is_deleted")
  · rw [if_pos hid]
    refine ⟨H ++ A, str ",\n" ++ B ++ M ++ str "    is_deleted BOOLEAN DEFAULT FALSE\n" ++ str ");", ?_⟩
    simp [List.append_assoc]
  · rw [if_neg hid]
    -- sql5 ends with ",\n" after the chunk
    have hBM : endsIn (str ",\n") (B ++ M) := by
      apply endsIn_append
      · apply endsIn_flatten
        intro x hx
        obtain ⟨c', _, rfl⟩ := List.mem_map.mp hx
        exact Or.inr ⟨str "    " ++ generateColumnDefinition c', by simp⟩
      · exact endsIn_metaTail t
    have hW : ∃ W, str ",\n" ++ (B ++ M) = W ++ str ",\n" := by
      rcases hBM with h0 | ⟨y, hy⟩
      · exact ⟨[], by rw [h0]; simp⟩
      · exact ⟨str ",\n" ++ y, by rw [hy]; simp⟩
    obtain ⟨W, hWeq⟩ := hW
    have hsql5 : H ++ (A ++ (chunkNC ++ str ",\n") ++ B) ++ M
        = (H ++ A ++ chunkNC ++ W) ++ str ",\n" := by
      calc H ++ (A ++ (chunkNC ++ str ",\n") ++ B) ++ M
          = H ++ A ++ chunkNC ++ (str ",\n" ++ (B ++ M)) := by simp [List.append_assoc]
        _ = H ++ A ++ chunkNC ++ (W ++ str ",\n") := by rw [hWeq]
        _ = (H ++ A ++ chunkNC ++ W) ++ str ",\n" := by simp [List.append_assoc]
    rw [hsql5, trimSuffixStr_append]
    refine ⟨H ++ A, W ++ str "\n" ++ str ");", ?_⟩
    simp [List.append_assoc]

theorem mapSqlToGoType_ne_nil (b : Str) (pk : Bool) : mapSqlToGoType b pk ≠ [] := by
  unfold mapSqlToGoType
  split_ifs <;> decide

theorem goFieldInfo_goType (col : Column) :
    (generateGoFieldInfo col).goType
      = mapSqlToGoType (leadingAlpha (upper col.type)) col.isPrimaryKey := rfl

theorem mapSqlToGoType_default (b : Str) (pk : Bool) (h : b ∉ recognizedBaseTypes) :
    mapSqlToGoType b pk = str "string" := by
  simp only [recognizedBaseTypes, List.mem_cons, not_or, List.not_mem_nil] at h
  obtain ⟨h1, h2, h3, h4, h5, h6, h7, h8, h9, h10, h11, h12, h13, h14, h15,
    h16, h17, h18, h19, h20, h21, h22, -⟩ := h
  unfold mapSqlToGoType
  simp [List.mem_cons, h1, h2, h3, h4, h5, h6, h7, h8, h9, h10, h11, h12, h13,
    h14, h15, h16, h17, h18, h19, h20, h21, h22]

theorem generateGoFieldInfo_pk (c : Column) :
    (generateGoFieldInfo c).isPrimaryKey = c.isPrimaryKey := rfl

theorem processLine_no_pk (st : ParseState) (line : Str)
    (h1 : ∀ t ∈ st.tables, ∀ c ∈ t.columns, c.isPrimaryKey = false)
    (h2 : ∀ t, st.current = some t → ∀ c ∈ t.columns, c.isPrimaryKey = false) :
    (∀ t ∈ (processLine st line).tables, ∀ c ∈ t.columns, c.isPrimaryKey = false) ∧
    (∀ t, (processLine st line).current = some t → ∀ c ∈ t.columns, c.isPrimaryKey = false) := by
  obtain ⟨stTables, stCurrent, stIn⟩ := st
  simp only [] at h1 h2
  unfold processLine
  set line' := trimSpace line with hline'
  simp only []
  by_cases hskip :
      (startsWith line' (str "--") || startsWith line' (str "/*") || line'.isEmpty) = true
  · rw [if_pos hskip]
    exact ⟨h1, h2⟩
  · rw [if_neg hskip]
    rcases hct : findCreateTable line' with _ | tableName
    · dsimp only
      by_cases hcl : stIn = true ∧ containsSub line' (str ");") = true
      · rw [if_pos hcl]
        cases stCurrent with
        | none =>
          dsimp only
          exact ⟨h1, fun t ht => by cases ht⟩
        | some t₀ =>
          dsimp only
          constructor
          · intro t ht c hc
            rcases List.mem_append.mp ht with h | h
            · exact h1 t h c hc
            · rw [List.mem_singleton.mp h] at hc
              exact h2 t₀ rfl c hc
          · intro t ht
            cases ht
      · rw [if_neg hcl]
        by_cases hin : stIn = true ∧ stCurrent.isSome = true
        · rw [if_pos hin]
          rcases hcol : parseColumnDefinition line' with _ | col
          · dsimp only
            exact ⟨h1, h2⟩
          · dsimp only
            refine ⟨h1, ?_⟩
            intro t ht c hc
            cases stCurrent with
            | none => cases ht
            | some t₀ =>
              simp only [Option.map_some', Option.some.injEq] at ht
              subst ht
              simp only [List.mem_append] at hc
              rcases hc with hc | hc
              · exact h2 t₀ rfl c hc
              · rcases List.mem_singleton.mp hc with rfl
                exact parseColumnDefinition_no_pk _ _ hcol
        · rw [if_neg hin]
          exact ⟨h1, h2⟩
    · dsimp only
      refine ⟨h1, ?_⟩
      intro t ht c hc
      simp only [Option.some.injEq] at ht
      subst ht
      cases hc

theorem foldl_no_pk (lines : List Str) :
    ∀ st : ParseState,
    (∀ t ∈ st.tables, ∀ c ∈ t.columns, c.isPrimaryKey = false) →
    (∀ t, st.current = some t → ∀ c ∈ t.columns, c.isPrimaryKey = false) →
    ∀ t ∈ (lines.foldl processLine st).tables, ∀ c ∈ t.columns, c.isPrimaryKey = false := by
  induction lines with
  | nil => intro st h1 _ ; exact h1
  | cons hd tl ih =>
    intro st h1 h2
    rw [List.foldl_cons]
    obtain ⟨h1', h2'⟩ := processLine_no_pk st hd h1 h2
    exact ih _ h1' h2'

theorem toNat_ofNat_valid (m : Nat) (hv : m.isValidChar) : (Char.ofNat m).toNat = m := by
  rw [Char.ofNat, dif_pos hv]
  rfl

theorem toLower_eq_underscore (c : Char) (h : c.toLower = '_') : c = '_' := by
  unfold Char.toLower at h
  simp only [] at h
  by_cases hr : c.toNat ≥ 65 ∧ c.toNat ≤ 90
  · rw [if_pos hr] at h
    have h2 := congrArg Char.toNat h
    have hv : (c.toNat + 32).isValidChar := by
      left
      omega
    rw [toNat_ofNat_valid _ hv] at h2
    have h3 : ('_').toNat = 95 := rfl
    omega
  · rw [if_neg hr] at h
    exact h

theorem splitOnChar_ne_nil (sep : Char) (s : Str) : splitOnChar sep s ≠ [] := by
  induction s with
  | nil => simp [splitOnChar]
  | cons c rest ih =>
    unfold splitOnChar
    split
    · simp
    · rcases h : splitOnChar sep rest with _ | ⟨hd, tl⟩
      · exact absurd h ih
      · simp [List.modifyHead]

theorem splitOnChar_lower (s : Str) :
    splitOnChar '_' (lower s) = (splitOnChar '_' s).map lower := by
  induction s with
  | nil => rfl
  | cons c rest ih =>
    show splitOnChar '_' (c.toLower :: lower rest) = _
    by_cases hc : c = '_'
    · subst hc
      show splitOnChar '_' ('_' :: lower rest) = _
      unfold splitOnChar
      rw [if_pos rfl, if_pos rfl]
      simp only [List.map_cons, ih]
      rfl
    · have hcl : c.toLower ≠ '_' := fun h => hc (toLower_eq_underscore c h)
      unfold splitOnChar
      rw [if_neg hcl, if_neg hc, ih]
      rcases h : splitOnChar '_' rest with _ | ⟨hd, tl⟩
      · exact absurd h (splitOnChar_ne_nil _ _)
      · simp [List.modifyHead, lower]

theorem splitOnChar_no_sep (sep : Char) (b : Str) (h : sep ∉ b) :
    splitOnChar sep b = [b] := by
  induction b with
  | nil => rfl
  | cons c rest ih =>
    unfold splitOnChar
    have hc : ¬ c = sep := fun hcc => h (by simp [hcc])
    rw [if_neg hc, ih (fun hr => h (by simp [hr]))]
    rfl

theorem splitOnChar_append_cons (sep : Char) (b r : Str) (h : sep ∉ b) :
    splitOnChar sep (b ++ sep :: r) = b :: splitOnChar sep r := by
  induction b with
  | nil => simp [splitOnChar]
  | cons c rest ih =>
    have hc : ¬ c = sep := fun hcc => h (by simp [hcc])
    have ih' := ih (fun hr => h (by simp [hr]))
    show splitOnChar sep (c :: (rest ++ sep :: r)) = _
    simp [splitOnChar, hc, ih']

theorem splitOnChar_joinSepNl (bodies : List Str) (hne : bodies ≠ [])
    (h : ∀ b ∈ bodies, '\n' ∉ b) :
    splitOnChar '\n' (joinSepNl bodies) = bodies := by
  induction bodies with
  | nil => cases hne rfl
  | cons b bs ih =>
    cases bs with
    | nil =>
      show splitOnChar '\n' b = [b]
      exact splitOnChar_no_sep '\n' b (h b (by simp))
    | cons b' bs' =>
      show splitOnChar '\n' (b ++ '\n' :: joinSepNl (b' :: bs')) = _
      rw [splitOnChar_append_cons '\n' b _ (h b (by simp))]
      rw [ih (by simp) (fun x hx => h x (by simp [hx]))]

theorem flatten_map_newline (bodies : List Str) (hne : bodies ≠ []) :
    ((bodies.map (fun b => b ++ ['\n'])).flatten) = joinSepNl bodies ++ ['\n'] := by
  induction bodies with
  | nil => cases hne rfl
  | cons b bs ih =>
    cases bs with
    | nil => simp [joinSepNl]
    | cons b' bs' =>
      show (b ++ ['\n']) ++ ((b' :: bs').map (fun b => b ++ ['\n'])).flatten = _
      rw [ih (by simp)]
      show (b ++ ['\n']) ++ (joinSepNl (b' :: bs') ++ ['\n'])
        = (b ++ '\n' :: joinSepNl (b' :: bs')) ++ ['\n']
      simp

theorem joinSepNl_head (bodies : List Str) (hne : bodies ≠ [])
    (h : ∀ b ∈ bodies, ∃ w, b = 'D' :: w) :
    ∃ w, joinSepNl bodies = 'D' :: w := by
  induction bodies with
  | nil => cases hne rfl
  | cons b bs ih =>
    cases bs with
    | nil => exact h b (by simp)
    | cons b' bs' =>
      obtain ⟨w, hw⟩ := h b (by simp)
      exact ⟨w ++ '\n' :: joinSepNl (b' :: bs'), by
        show b ++ '\n' :: joinSepNl (b' :: bs') = _
        rw [hw]
        rfl⟩

theorem joinSepNl_last (bodies : List Str) (hne : bodies ≠ [])
    (h : ∀ b ∈ bodies, ∃ w, b = w ++ [';']) :
    ∃ w, joinSepNl bodies = w ++ [';'] := by
  induction bodies with
  | nil => cases hne rfl
  | cons b bs ih =>
    cases bs with
    | nil => exact h b (by simp)
    | cons b' bs' =>
      obtain ⟨w', hw'⟩ := ih (by simp) (fun x hx => h x (by simp [hx]))
      refine ⟨b ++ '\n' :: w', ?_⟩
      show b ++ '\n' :: joinSepNl (b' :: bs') = _
      rw [hw']
      simp

theorem trimSpace_joinSepNl (X : Str) (w w' : Str)
    (hhead : X = 'D' :: w) (hlast : X = w' ++ [';']) :
    trimSpace (X ++ ['\n']) = X := by
  unfold trimSpace
  have h1 : (X ++ ['\n']).dropWhile goIsSpace = X ++ ['\n'] := by
    rw [hhead]
    show List.dropWhile goIsSpace ('D' :: (w ++ ['\n'])) = _
    rw [List.dropWhile_cons_of_neg (by decide)]
    rfl
  rw [h1, List.reverse_append]
  show (List.dropWhile goIsSpace ('\n' :: X.reverse)).reverse = X
  rw [List.dropWhile_cons_of_pos (by decide)]
  have h2 : X.reverse.dropWhile goIsSpace = X.reverse := by
    rw [hlast, List.reverse_append]
    simp only [List.reverse_singleton, List.singleton_append]
    rw [List.dropWhile_cons_of_neg (by decide)]
  rw [h2, List.reverse_reverse]

theorem filterMap_nonempty (L : List Str) (h : ∀ l ∈ L, l ≠ []) :
    L.filterMap (fun l => if l.isEmpty then none else some (l ++ str "\n"))
      = L.map (fun l => l ++ str "\n") := by
  induction L with
  | nil => rfl
  | cons hd tl ih =>
    rw [List.filterMap_cons, List.map_cons]
    have hne := h hd (by simp)
    have hhd : hd.isEmpty = false := by
      cases hd
      · cases hne rfl
      · rfl
    rw [hhd]
    simp only [Bool.false_eq_true, if_false]
    rw [ih (fun l hl => h l (by simp [hl]))]

theorem dropTableLine_eq (schema : Str) (t : Table) :
    dropTableLine schema t = dropTableBody schema t ++ ['\n'] := by
  unfold dropTableLine dropTableBody
  rw [show (str ";\n") = str ";" ++ ['\n'] from by decide]
  simp [List.append_assoc]

theorem dropTableBody_head (schema : Str) (t : Table) :
    ∃ w, dropTableBody schema t = 'D' :: w := by
  refine ⟨str "ROP TABLE IF EXISTS " ++ qualifiedTableName schema t.name ++ str ";", ?_⟩
  unfold dropTableBody
  rw [show (str "DROP TABLE IF EXISTS ") = 'D' :: str "ROP TABLE IF EXISTS " from by decide]
  rfl

theorem dropTableBody_last (schema : Str) (t : Table) :
    ∃ w, dropTableBody schema t = w ++ [';'] := by
  refine ⟨str "DROP TABLE IF EXISTS " ++ qualifiedTableName schema t.name, ?_⟩
  unfold dropTableBody
  simp [List.append_assoc]
  rfl

theorem qualifiedTableName_no_newline (schema n : Str)
    (hs : '\n' ∉ schema) (hn : '\n' ∉ n) : '\n' ∉ qualifiedTableName schema n := by
  unfold qualifiedTableName
  split
  · exact hn
  · intro h
    rcases List.mem_append.mp h with h | h
    · rcases List.mem_append.mp h with h | h
      · exact hs h
      · simp [str] at h
    · exact hn h

theorem dropTableBody_no_newline (schema : Str) (t : Table)
    (hs : '\n' ∉ schema) (hn : '\n' ∉ t.name) : '\n' ∉ dropTableBody schema t := by
  unfold dropTableBody
  intro h
  rcases List.mem_append.mp h with h | h
  · rcases List.mem_append.mp h with h | h
    · revert h; decide
    · exact qualifiedTableName_no_newline schema t.name hs hn h
  · revert h; decide

theorem tableDrops_reversed (tables : List Table) (schema : Str)
    (hnames : ∀ t ∈ tables, '\n' ∉ t.name) (hschema : '\n' ∉ schema) :
    (generateGooseMigration tables schema).tableDrops
      = ((tables.map (dropTableLine schema)).reverse).flatten := by
  rcases htab : tables with _ | ⟨t0, ts⟩
  · rfl
  · rw [← htab]
    have hbne : tables.map (dropTableBody schema) ≠ [] := by
      simp [htab]
    have hraw : (tables.map (dropTableLine schema)).flatten
        = joinSepNl (tables.map (dropTableBody schema)) ++ ['\n'] := by
      have : tables.map (dropTableLine schema)
          = (tables.map (dropTableBody schema)).map (fun b => b ++ ['\n']) := by
        rw [List.map_map]
        exact List.map_congr_left (fun t _ => dropTableLine_eq schema t)
      rw [this, flatten_map_newline _ hbne]
    have hheadX : ∃ w, joinSepNl (tables.map (dropTableBody schema)) = 'D' :: w := by
      apply joinSepNl_head _ hbne
      intro b hb
      obtain ⟨t, _, rfl⟩ := List.mem_map.mp hb
      exact dropTableBody_head schema t
    have hlastX : ∃ w, joinSepNl (tables.map (dropTableBody schema)) = w ++ [';'] := by
      apply joinSepNl_last _ hbne
      intro b hb
      obtain ⟨t, _, rfl⟩ := List.mem_map.mp hb
      exact dropTableBody_last schema t
    obtain ⟨w, hw⟩ := hheadX
    obtain ⟨w', hw'⟩ := hlastX
    show reverseNonEmptyLines ((tables.map (dropTableLine schema)).flatten) = _
    rw [hraw]
    unfold reverseNonEmptyLines
    simp only []
    rw [trimSpace_joinSepNl _ w w' hw hw']
    rw [splitOnChar_joinSepNl _ hbne (by
      intro b hb
      obtain ⟨t, ht, rfl⟩ := List.mem_map.mp hb
      exact dropTableBody_no_newline schema t hschema (hnames t ht))]
    rw [filterMap_nonempty _ (by
      intro l hl
      rw [List.mem_reverse] at hl
      obtain ⟨tb, htb, rfl⟩ := List.mem_map.mp hl
      obtain ⟨wb, hwb⟩ := dropTableBody_head schema tb
      rw [hwb]
      simp)]
    rw [← List.map_reverse]
    have : ((tables.map (dropTableBody schema)).reverse).map (fun l => l ++ str "\n")
        = (tables.map (dropTableLine schema)).reverse := by
      rw [← List.map_reverse, ← List.map_reverse, List.map_map]
      apply List.map_congr_left
      intro t _
      exact (dropTableLine_eq schema t).symm
    rw [← this, List.map_reverse]

theorem createTableColumnsBlock_ne_nil (t : Table) (h : t.columns ≠ []) :
    createTableColumnsBlock t ≠ [] := by
  unfold createTableColumnsBlock
  rcases hc : t.columns with _ | ⟨c0, cs⟩
  · cases h hc
  · rw [List.map_cons, List.flatten_cons]
    intro hnil
    have h1 := (List.append_eq_nil.mp hnil).1
    have h2 := (List.append_eq_nil.mp h1).1
    have h3 := (List.append_eq_nil.mp h2).1
    revert h3
    decide

theorem hasColumnNamed_columns_ne_nil (t : Table) (n : Str)
    (h : hasColumnNamed t n = true) : t.columns ≠ [] := by
  unfold hasColumnNamed at h
  obtain ⟨c, hc, -⟩ := List.any_eq_true.mp h
  intro hnil
  rw [hnil] at hc
  cases hc

theorem createTable_startsWith (t : Table) (schema : Str) :
    ∃ rest, generateCreateTable t schema
      = (str "CREATE TABLE IF NOT EXISTS " ++ qualifiedTableName schema t.name) ++ rest := by
  unfold generateCreateTable
  simp only []
  by_cases hdel : !hasColumnNamed t (str "is_deleted")
  · rw [if_pos hdel]
    refine ⟨(str " (\n" ++ (if !hasColumnNamed t (str "id")
        then str "    id BIGSERIAL PRIMARY KEY,\n" else []))
        ++ createTableColumnsBlock t ++ createTableMetaTail t
        ++ str "    is_deleted BOOLEAN DEFAULT FALSE\n" ++ str ");", ?_⟩
    unfold createTableHeader
    simp [List.append_assoc]
  · rw [if_neg hdel]
    have hcols : t.columns ≠ [] := by
      apply hasColumnNamed_columns_ne_nil t (str "is_deleted")
      simpa using hdel
    have hend : endsIn (str ",\n") (createTableColumnsBlock t ++ createTableMetaTail t) :=
      endsIn_append _ _ _ (endsIn_columnsBlock t) (endsIn_metaTail t)
    have hne : createTableColumnsBlock t ++ createTableMetaTail t ≠ [] := by
      intro hnil
      exact createTableColumnsBlock_ne_nil t hcols (List.append_eq_nil.mp hnil).1
    rcases hend with h0 | ⟨y, hy⟩
    · cases hne h0
    · have hmid : createTableHeader t schema ++ createTableColumnsBlock t ++ createTableMetaTail t
          = (createTableHeader t schema ++ y) ++ str ",\n" := by
        rw [List.append_assoc, hy]
        simp [List.append_assoc]
      rw [hmid, trimSuffixStr_append]
      refine ⟨(str " (\n" ++ (if !hasColumnNamed t (str "id")
          then str "    id BIGSERIAL PRIMARY KEY,\n" else []))
          ++ y ++ str "\n" ++ str ");", ?_⟩
      unfold createTableHeader
      simp [List.append_assoc]

theorem placeholder_cons (k : Str) : placeholder k = '<' :: (k ++ ['>']) := rfl

theorem replaceAllAux_nil (p : Char) (pr rep : Str) : replaceAllAux p pr rep [] = [] := by
  rw [replaceAllAux]

theorem replaceAllAux_cons (p : Char) (pr rep : Str) (c : Char) (rest : Str) :
    replaceAllAux p pr rep (c :: rest)
      = if startsWith (c :: rest) (p :: pr) then
          rep ++ replaceAllAux p pr rep (rest.drop pr.length)
        else c :: replaceAllAux p pr rep rest := by
  rw [replaceAllAux]

theorem replaceAllAux_skip (pr v : Str) :
    ∀ a b : Str, '<' ∉ a →
    replaceAllAux '<' pr v (a ++ b) = a ++ replaceAllAux '<' pr v b := by
  intro a
  induction a with
  | nil => intro b _; rfl
  | cons c a' ih =>
    intro b ha
    have hc : c ≠ '<' := fun h => ha (by simp [h])
    rw [List.cons_append, replaceAllAux_cons]
    have hpre : startsWith (c :: (a' ++ b)) ('<' :: pr) = false := by
      unfold startsWith
      unfold leadsWith
      simp [Ne.symm hc]
    rw [hpre]
    simp only [Bool.false_eq_true, if_false]
    rw [ih b (fun h => ha (by simp [h]))]
    rfl

theorem sepU : ∀ (a b u w : Str), '>' ∉ a → '>' ∉ b →
    a ++ '>' :: u = b ++ '>' :: w → a = b ∧ u = w := by
  intro a
  induction a with
  | nil =>
    intro b u w _ hb h
    cases b with
    | nil =>
      simp only [List.nil_append] at h
      exact ⟨rfl, (List.cons.injEq _ _ _ _).mp h |>.2⟩
    | cons d b' =>
      simp only [List.nil_append, List.cons_append] at h
      obtain ⟨h1, -⟩ := List.cons.injEq _ _ _ _ |>.mp h
      exact absurd (by simp [← h1]) hb
  | cons c a' ih =>
    intro b u w ha hb h
    cases b with
    | nil =>
      simp only [List.cons_append, List.nil_append] at h
      obtain ⟨h1, -⟩ := List.cons.injEq _ _ _ _ |>.mp h
      exact absurd (by simp [h1]) ha
    | cons d b' =>
      simp only [List.cons_append] at h
      obtain ⟨h1, h2⟩ := List.cons.injEq _ _ _ _ |>.mp h
      obtain ⟨h3, h4⟩ := ih b' u w (fun hx => ha (by simp [hx])) (fun hx => hb (by simp [hx])) h2
      exact ⟨by rw [h1, h3], h4⟩

theorem sepV : ∀ (k x w d : Str), '<' ∉ k →
    x ++ '<' :: w = k ++ '>' :: d → ∃ x₀, x = k ++ '>' :: x₀ ∧ x₀ ++ '<' :: w = d := by
  intro k
  induction k with
  | nil =>
    intro x w d _ h
    cases x with
    | nil =>
      simp only [List.nil_append] at h
      obtain ⟨h1, -⟩ := List.cons.injEq _ _ _ _ |>.mp h
      cases h1
    | cons e x' =>
      simp only [List.cons_append, List.nil_append] at h
      obtain ⟨h1, h2⟩ := List.cons.injEq _ _ _ _ |>.mp h
      exact ⟨x', by rw [h1]; rfl, h2⟩
  | cons c k' ih =>
    intro x w d hk h
    cases x with
    | nil =>
      simp only [List.nil_append, List.cons_append] at h
      obtain ⟨h1, -⟩ := List.cons.injEq _ _ _ _ |>.mp h
      exact absurd (by simp [← h1]) hk
    | cons e x' =>
      simp only [List.cons_append] at h
      obtain ⟨h1, h2⟩ := List.cons.injEq _ _ _ _ |>.mp h
      obtain ⟨x₀, h3, h4⟩ := ih x' w d (fun hx => hk (by simp [hx])) h2
      exact ⟨x₀, by rw [h1, h3]; rfl, h4⟩

theorem replaceAux_preserves (k k' v : Str) (hne : k ≠ k')
    (hk : bracketFree k) (hk' : bracketFree k') :
    ∀ n (s x y : Str), s.length ≤ n → s = x ++ placeholder k ++ y →
    ∃ x' y', replaceAllAux '<' (k' ++ ['>']) v s = x' ++ placeholder k ++ y' := by
  intro n
  induction n with
  | zero =>
    intro s x y hlen hs
    rw [hs] at hlen
    simp [placeholder] at hlen
    exact absurd hlen.2.1 (by decide)
  | succ n ih =>
    intro s x y hlen hs
    cases s with
    | nil =>
      rw [placeholder_cons] at hs
      cases x <;> simp at hs
    | cons c rest =>
      by_cases hpre : startsWith (c :: rest) ('<' :: (k' ++ ['>'])) = true
      · obtain ⟨d, hd⟩ := (leadsWith_iff ('<' :: (k' ++ ['>'])) (c :: rest)).mp hpre
        have hd' : c :: rest = placeholder k' ++ d := by
          rw [placeholder_cons]
          exact hd
        have heq : x ++ placeholder k ++ y = placeholder k' ++ d := by
          rw [← hs, ← hd']
        cases x with
        | nil =>
          simp only [List.nil_append] at heq
          rw [placeholder_cons, placeholder_cons] at heq
          obtain ⟨-, h2⟩ := List.cons.injEq _ _ _ _ |>.mp heq
          have h3 : k ++ '>' :: y = k' ++ '>' :: d := by
            have := h2
            simpa [List.append_assoc] using this
          exact absurd (sepU k k' y d hk.2 hk'.2 h3).1 hne
        | cons cx x' =>
          rw [placeholder_cons, placeholder_cons] at heq
          simp only [List.cons_append] at heq
          obtain ⟨h1, h2⟩ := List.cons.injEq _ _ _ _ |>.mp heq
          have h2' : x' ++ '<' :: ((k ++ ['>']) ++ y) = k' ++ '>' :: d := by
            simpa [List.cons_append, List.singleton_append] using h2
          obtain ⟨x₀, hx₀, hd₀⟩ := sepV k' x' ((k ++ ['>']) ++ y) d hk'.1 h2'
          have hdform : d = x₀ ++ placeholder k ++ y := by
            rw [placeholder_cons]
            simpa [List.cons_append] using hd₀.symm
          -- compute the recursive step
          have hrest : rest = (k' ++ ['>']) ++ d := by
            rw [placeholder_cons] at hd'
            simp only [List.cons_append] at hd'
            exact (List.cons.injEq _ _ _ _ |>.mp hd').2
          have hdrop : rest.drop (k' ++ ['>']).length = d := by
            rw [hrest, List.drop_left]
          have hdlen : d.length ≤ n := by
            have h0 : (c :: rest).length ≤ n + 1 := hlen
            have h1 : rest.length = (k' ++ ['>']).length + d.length := by
              rw [hrest, List.length_append]
            simp only [List.length_cons, List.length_append, List.length_cons,
              List.length_nil] at h0 h1
            omega
          obtain ⟨x'', y'', hres⟩ := ih d x₀ y hdlen hdform
          refine ⟨v ++ x'', y'', ?_⟩
          rw [replaceAllAux_cons, if_pos hpre, hdrop, hres]
          simp [List.append_assoc]
      · rw [replaceAllAux_cons, if_neg hpre]
        cases x with
        | nil =>
          simp only [List.nil_append] at hs
          rw [placeholder_cons] at hs
          obtain ⟨h1, h2⟩ := List.cons.injEq _ _ _ _ |>.mp hs
          have hskip : replaceAllAux '<' (k' ++ ['>']) v rest
              = (k ++ ['>']) ++ replaceAllAux '<' (k' ++ ['>']) v y := by
            rw [h2]
            apply replaceAllAux_skip
            intro hmem
            rcases List.mem_append.mp hmem with hmu | hmu
            · exact hk.1 hmu
            · simp at hmu
          refine ⟨[], replaceAllAux '<' (k' ++ ['>']) v y, ?_⟩
          rw [hskip, h1, placeholder_cons]
          simp
        | cons cx x' =>
          simp only [List.cons_append] at hs
          obtain ⟨h1, h2⟩ := List.cons.injEq _ _ _ _ |>.mp hs
          have hrlen : rest.length ≤ n := by
            have h0 : (c :: rest).length ≤ n + 1 := hlen
            simp only [List.length_cons] at h0
            omega
          obtain ⟨x'', y'', hres⟩ := ih rest x' y hrlen h2
          refine ⟨c :: x'', y'', ?_⟩
          rw [hres]
          rfl

theorem replaceAll_placeholder (s key v : Str) :
    replaceAll s (placeholder key) v = replaceAllAux '<' (key ++ ['>']) v s := rfl

/-! Claim theorems.  Each theorem settles one claim of the
specification against the embedded source. -/

/-- C1 counterexample: on the users scenario input, the parsed schema has
one table users, but neither the domain model nor the DTO contains an
Email field: the email line contains UNIQUE and is skipped as a
constraint line, so the claim that the DTO has exactly ID, Name, Email
fails at this input. -/
theorem c1_counterexample :
    (parseSQLSchema usersLines).map Table.name = [str "users"] ∧
    ∀ t ∈ parseSQLSchema usersLines,
      str "Email" ∉ (generateDomainModel t).fields.map Prod.fst ∧
      str "Email" ∉ (generateDTO t).fields.map Prod.fst := by
  decide

/-- C1 (amended): for the users scenario input, the domain model is the
entity User with the embedded base entity and the single declared field
Name, and the DTO has exactly the fields ID and Name; the id line
(PRIMARY KEY) and the email line (UNIQUE) are skipped as constraint
lines, and created_at is suppressed by the meta contract. -/
theorem c1_users_scenario :
    (parseSQLSchema usersLines).map generateDomainModel
      = [{ structName := str "User", hasMetaField := true,
           fields := [(str "Name", str "string")] }] ∧
    (parseSQLSchema usersLines).map generateDTO
      = [{ structName := str "User",
           fields := [(str "ID", str "int64"), (str "Name", str "string")] }] := by
  decide

/-- C2 counterexample: the column-definition line id BIGSERIAL PRIMARY
KEY is not parsed as a column with its primary-key flag set, as the
claim states; it is rejected as a constraint line because the parser
skips every line containing PRIMARY KEY, standalone or not. -/
theorem c2_counterexample :
    parseColumnDefinition (str "id BIGSERIAL PRIMARY KEY") = none := by
  decide

/-- C2 (amended): the parser skips a line as a constraint whenever the
trimmed line contains any constraint keyword, PRIMARY KEY included, in
any position; every line that is parsed as a column has its nullable
flag equal to the negation of a NOT NULL occurrence, so nullable
defaults to true and is cleared exactly by NOT NULL. -/
theorem c2_constraint_skip_and_nullable (rawLine : Str) :
    (constraintKeywords.any
        (fun kw => containsSub (upper (trimSuffixStr (trimSpace rawLine) (str ","))) kw) = true →
      parseColumnDefinition rawLine = none) ∧
    (∀ col, parseColumnDefinition rawLine = some col →
      col.isNullable
        = !containsSub (upper (trimSuffixStr (trimSpace rawLine) (str ","))) (str "NOT NULL")) := by
  constructor
  · intro h
    unfold parseColumnDefinition
    simp only [h]
    rfl
  · intro col h
    unfold parseColumnDefinition at h
    by_cases hg : constraintKeywords.any
        (fun kw => containsSub (upper (trimSuffixStr (trimSpace rawLine) (str ","))) kw) = true
    · simp [hg] at h
    · simp only [Bool.not_eq_true] at hg
      simp only [hg, Bool.false_eq_true, if_false] at h
      rcases hf : goFields (trimSuffixStr (trimSpace rawLine) (str ",")) with _ | ⟨p0, _ | ⟨p1, rest⟩⟩
      · rw [hf] at h; cases h
      · rw [hf] at h; cases h
      · rw [hf] at h
        cases h
        rfl

/-- C2 witness: a CHECK constraint line is skipped, and the parsed
column for name TEXT NOT NULL is non-nullable. -/
theorem c2_witness :
    parseColumnDefinition (str "CHECK (qty > 0)") = none ∧
    (parseColumnDefinition (str "name TEXT NOT NULL")).map Column.isNullable = some false := by
  constructor
  · exact (c2_constraint_skip_and_nullable (str "CHECK (qty > 0)")).1 (by decide)
  · have h : ∀ col, parseColumnDefinition (str "name TEXT NOT NULL") = some col →
        col.isNullable = false := by
      intro col hcol
      rw [(c2_constraint_skip_and_nullable (str "name TEXT NOT NULL")).2 col hcol]
      decide
    rcases hp : parseColumnDefinition (str "name TEXT NOT NULL") with _ | col
    · exact absurd hp (by decide)
    · simp [h col hp]

/-- C3 counterexample: on the meta-contract column name id, the
domain-model suppression predicate and the DTO suppression predicate
disagree, so the claim that the suppression predicate yields the same
boolean across the per-table emitters is false. -/
theorem c3_counterexample : ¬ (domainSkip (str "id") = dtoSkip (str "id")) := by
  decide

-- flatten decomposition for the migration part of C3

/-- C3 (amended): for every case permutation of the four audit column
names the domain-model and DTO generators agree (both suppress); for
every case permutation of id the DTO generator suppresses while the
domain-model generator does not; and the migration generator suppresses
no declared column at all: every declared column definition appears in
the CREATE TABLE output. -/
theorem c3_suppression_predicates :
    (∀ n : Str,
      (lower n = str "created_at" ∨ lower n = str "updated_at" ∨
       lower n = str "deleted_at" ∨ lower n = str "is_deleted") →
      domainSkip n = true ∧ dtoSkip n = true) ∧
    (∀ n : Str, lower n = str "id" → domainSkip n = false ∧ dtoSkip n = true) ∧
    (∀ (t : Table) (c : Column) (schema : Str), c ∈ t.columns →
      ∃ pre post, generateCreateTable t schema =
        pre ++ (str "    " ++ generateColumnDefinition c) ++ post) := by
  refine ⟨?_, ?_, fun t c schema hc => createTable_emits_column t c schema hc⟩
  · intro n hn
    rcases hn with h | h | h | h <;>
      (constructor <;> (first | (unfold domainSkip; rw [h]; decide) | (unfold dtoSkip; rw [h]; decide)))
  · intro n h
    constructor
    · unfold domainSkip; rw [h]; decide
    · unfold dtoSkip; rw [h]; decide

-- C9 pieces

/-- C3 witness: instances of the amended claim at CREATED_AT, ID and a
one-column table. -/
theorem c3_witness :
    domainSkip (str "CREATED_AT") = true ∧ dtoSkip (str "CREATED_AT") = true ∧
    domainSkip (str "ID") = false ∧ dtoSkip (str "ID") = true ∧
    ∃ pre post, generateCreateTable ⟨str "things", [mkColumn "label" "TEXT"]⟩ []
      = pre ++ (str "    " ++ generateColumnDefinition (mkColumn "label" "TEXT")) ++ post := by
  obtain ⟨h1, h2⟩ := c3_suppression_predicates.1 (str "CREATED_AT") (Or.inl (by decide))
  obtain ⟨h3, h4⟩ := c3_suppression_predicates.2.1 (str "ID") (by decide)
  exact ⟨h1, h2, h3, h4,
    c3_suppression_predicates.2.2 ⟨str "things", [mkColumn "label" "TEXT"]⟩
      (mkColumn "label" "TEXT") [] (List.mem_singleton.mpr rfl)⟩

/-- C4 counterexample: singularize is not idempotent on every name; on
Address a second application strips a second letter. -/
theorem c4_counterexample :
    ¬ (singularize (singularize (str "Address")) = singularize (str "Address")) := by
  decide

/-- C4 (amended): singularize is idempotent on every name that does not
end in a double s; on names ending in ss (for example Address) the
second application strips again and idempotence fails. -/
theorem c4_singularize_idempotent (n : Str) (h : endsWith n (str "ss") = false) :
    singularize (singularize n) = singularize n := by
  rcases hr : n.reverse with _ | ⟨c, r⟩
  · have hn : n = [] := by
      have := congrArg List.reverse hr
      simpa using this
    subst hn
    rfl
  · by_cases hc : c = 's'
    · subst hc
      have hn : n = r.reverse ++ ['s'] := by
        have := congrArg List.reverse hr
        simpa using this
      have h1 : endsWith n (str "s") = true := by
        unfold endsWith
        rw [hr]
        rfl
      have hdrop : singularize n = r.reverse := by
        unfold singularize
        rw [h1]
        simp only [if_true]
        rw [hn, List.dropLast_concat]
      have h2 : leadsWith (str "s") r = false := by
        unfold endsWith at h
        rw [hr] at h
        simpa [str, leadsWith] using h
      have h3 : endsWith (singularize n) (str "s") = false := by
        unfold endsWith
        rw [hdrop, List.reverse_reverse]
        exact h2
      rw [singularize_of_not_s _ h3]
    · have h1 : endsWith n (str "s") = false := by
        unfold endsWith
        rw [hr]
        simpa [str, leadsWith] using fun h => absurd h.symm hc
      rw [singularize_of_not_s _ h1, singularize_of_not_s _ h1]

/-- C4 witness: idempotence at the name users. -/
theorem c4_witness :
    singularize (singularize (str "users")) = singularize (str "users") :=
  c4_singularize_idempotent (str "users") (by decide)

/-- C5: for every template and binding list over bracket-free keys,
every occurrence of a placeholder whose key is absent from the bindings
survives verbatim in the rendered output; rendering is a total function
and never fails. -/
theorem c5_unresolved_placeholder_verbatim (template : Str) (bindings : List (Str × Str)) (k : Str)
    (hk : bracketFree k)
    (hvars : ∀ kv ∈ bindings, bracketFree kv.1)
    (habsent : ∀ kv ∈ bindings, kv.1 ≠ k)
    (hocc : ∃ x y, template = x ++ placeholder k ++ y) :
    ∃ x y, replaceTemplateVariables template bindings = x ++ placeholder k ++ y := by
  induction bindings generalizing template with
  | nil => exact hocc
  | cons kv rest ih =>
    have hstep : replaceTemplateVariables template (kv :: rest)
        = replaceTemplateVariables (replaceAll template (placeholder kv.1) kv.2) rest := by
      unfold replaceTemplateVariables
      rw [List.foldl_cons]
    rw [hstep]
    obtain ⟨x, y, hxy⟩ := hocc
    apply ih (replaceAll template (placeholder kv.1) kv.2)
      (fun kv' h => hvars kv' (by simp [h]))
      (fun kv' h => habsent kv' (by simp [h]))
    rw [replaceAll_placeholder]
    exact replaceAux_preserves k kv.1 kv.2 (Ne.symm (habsent kv (by simp)))
      hk (hvars kv (by simp)) template.length template x y (le_refl _) hxy

/-- C5 witness: rendering a template with one bound key leaves the
unbound placeholder missing verbatim in the output. -/
theorem c5_witness :
    ∃ x y, replaceTemplateVariables (str "<struct_name> <missing>")
        [(str "struct_name", str "User")]
      = x ++ placeholder (str "missing") ++ y :=
  c5_unresolved_placeholder_verbatim (str "<struct_name> <missing>") [(str "struct_name", str "User")]
    (str "missing") (by decide) (by decide) (by decide)
    ⟨str "<struct_name> ", [], by decide⟩

/-- C6: the forward migration emits one CREATE TABLE block per table in
source order, each block opening with the CREATE TABLE header of its
table, and the backward migration emits the DROP TABLE lines in exactly
reversed table order; on the accounts/sessions scenario the accounts
creation precedes the sessions creation, the sessions drop precedes the
accounts drop, and an index is synthesized for account_id. -/
theorem c6_migration_order (tables : List Table) (schema : Str)
    (hnames : ∀ t ∈ tables, '\n' ∉ t.name) (hschema : '\n' ∉ schema) :
    (generateGooseMigration tables schema).tableCreations
      = (tables.map (fun t => generateCreateTable t schema ++ str "\n")).flatten
    ∧ (∀ t ∈ tables, ∃ rest, generateCreateTable t schema
        = (str "CREATE TABLE IF NOT EXISTS " ++ qualifiedTableName schema t.name) ++ rest)
    ∧ (generateGooseMigration tables schema).tableDrops
      = ((tables.map (dropTableLine schema)).reverse).flatten
    ∧ (parseSQLSchema accountsSessionsLines).map Table.name = [str "accounts", str "sessions"]
    ∧ (generateGooseMigration (parseSQLSchema accountsSessionsLines) []).tableCreations
      = str "CREATE TABLE IF NOT EXISTS accounts (\n    id BIGSERIAL PRIMARY KEY,\n    name VARCHAR(255) NOT NULL,\n    created_at TIMESTAMPTZ DEFAULT NOW(),\n    updated_at TIMESTAMPTZ DEFAULT NOW(),\n    deleted_at TIMESTAMPTZ,\n    is_deleted BOOLEAN DEFAULT FALSE\n);\nCREATE TABLE IF NOT EXISTS sessions (\n    id BIGSERIAL PRIMARY KEY,\n    account_id BIGINT NOT NULL,\n    created_at TIMESTAMPTZ DEFAULT NOW(),\n    updated_at TIMESTAMPTZ DEFAULT NOW(),\n    deleted_at TIMESTAMPTZ,\n    is_deleted BOOLEAN DEFAULT FALSE\n);\n"
    ∧ (generateGooseMigration (parseSQLSchema accountsSessionsLines) []).tableDrops
      = str "DROP TABLE IF EXISTS sessions;\nDROP TABLE IF EXISTS accounts;\n"
    ∧ containsSub (generateGooseMigration (parseSQLSchema accountsSessionsLines) []).indexCreations
        (str "idx_sessions_account_id") = true := by
  refine ⟨rfl, fun t _ => createTable_startsWith t schema,
    tableDrops_reversed tables schema hnames hschema,
    by decide, by decide, by decide, by decide⟩

/-- C6 witness: the reversal equation instantiated at the parsed
accounts/sessions scenario. -/
theorem c6_witness :
    (generateGooseMigration (parseSQLSchema accountsSessionsLines) []).tableDrops
      = (((parseSQLSchema accountsSessionsLines).map (dropTableLine [])).reverse).flatten :=
  (c6_migration_order (parseSQLSchema accountsSessionsLines) [] (by decide) (by decide)).2.2.1

/-- C7: when the parsed schema has zero tables the run fails with the
descriptive no-tables error before any external effect is performed:
the effect trace is empty, so no directory or file is created. -/
theorem c7_empty_schema_fails_fast (f : Str) (lines : List Str) (h : parseSQLSchema lines = []) :
    runHexagonal f lines = ([], Except.error (noTablesMessage f)) ∧
    ∃ x y, noTablesMessage f = x ++ str "No tables found" ++ y := by
  constructor
  · unfold runHexagonal
    rw [h]
    rfl
  · refine ⟨str "❌ ", str " in SQL schema '" ++ f ++
      str "'.\n💡 Please ensure your SQL file contains valid CREATE TABLE statements.\n📋 Example:\n   CREATE TABLE users (\n       id BIGSERIAL PRIMARY KEY,\n       name VARCHAR(255) NOT NULL,\n       email VARCHAR(255) UNIQUE NOT NULL,\n       created_at TIMESTAMPTZ DEFAULT NOW()\n   );", ?_⟩
    unfold noTablesMessage
    rw [show str "❌ No tables found in SQL schema '"
        = str "❌ " ++ str "No tables found" ++ str " in SQL schema '" from by decide]
    simp [List.append_assoc]

/-- C7 witness: the empty input parses to zero tables and the run
produces the error with an empty effect trace. -/
theorem c7_witness :
    runHexagonal (str "schema.sql") []
      = ([], Except.error (noTablesMessage (str "schema.sql"))) :=
  (c7_empty_schema_fails_fast (str "schema.sql") [] (by decide)).1

/-- C8: toCamelCase is exactly the per-segment conversion of the
underscore-separated segments of its input, where a whole segment id in
any case becomes the literal ID in that position and every other
segment is lowered with its first letter uppercased. -/
theorem c8_camel_case_segments (s : Str) :
    toCamelCase s = ((splitOnChar '_' s).map camelSegment).flatten := by
  unfold toCamelCase
  simp only []
  rw [splitOnChar_lower, List.map_map]
  rfl

/-- C8 witness: the segment equation at account_id. -/
theorem c8_witness :
    toCamelCase (str "account_id")
      = ((splitOnChar '_' (str "account_id")).map camelSegment).flatten :=
  c8_camel_case_segments (str "account_id")

/-- C9: the forward type mapping is total: every column receives a
non-empty Go type, and every column whose base type is outside the
recognized table receives the string fallback. -/
theorem c9_map_forward_total :
    (∀ col : Column, (generateGoFieldInfo col).goType ≠ []) ∧
    (∀ col : Column, leadingAlpha (upper col.type) ∉ recognizedBaseTypes →
      (generateGoFieldInfo col).goType = str "string") := by
  constructor
  · intro col
    rw [goFieldInfo_goType]
    exact mapSqlToGoType_ne_nil _ _
  · intro col h
    rw [goFieldInfo_goType]
    exact mapSqlToGoType_default _ _ h

/-- C9 witness: the fallback at an unrecognized type and at the empty
type string. -/
theorem c9_witness :
    leadingAlpha (upper (mkColumn "payload" "FOOBAR(10)").type) ∉ recognizedBaseTypes ∧
    (generateGoFieldInfo (mkColumn "payload" "FOOBAR(10)")).goType = str "string" ∧
    (generateGoFieldInfo (mkColumn "note" "")).goType = str "string" :=
  ⟨by decide, c9_map_forward_total.2 _ (by decide), c9_map_forward_total.2 _ (by decide)⟩

/-- C10: every column produced by the schema parser has its primary-key
flag false: lines containing PRIMARY KEY are rejected as constraint
lines before the flag-setting branch can run, so no downstream consumer
ever sees a parsed column marked primary-key. -/
theorem c10_parser_no_primary_key (lines : List Str) (t : Table) (c : Column)
    (ht : t ∈ parseSQLSchema lines) (hc : c ∈ t.columns) :
    c.isPrimaryKey = false := by
  unfold parseSQLSchema at ht
  simp only [List.mem_map] at ht
  obtain ⟨t₀, ht₀, rfl⟩ := ht
  simp only [List.mem_map] at hc
  obtain ⟨c₀, hc₀, rfl⟩ := hc
  rw [generateGoFieldInfo_pk]
  exact foldl_no_pk lines initState (by intro t ht; cases ht) (by intro t ht; cases ht) t₀ ht₀ c₀ hc₀

/-- C10 witness: the users scenario yields a parsed column and its
primary-key flag is false. -/
theorem c10_witness :
    ∃ t ∈ parseSQLSchema usersLines, ∃ c ∈ t.columns, c.isPrimaryKey = false := by
  have ht : (parseSQLSchema usersLines).headD ⟨[], []⟩ ∈ parseSQLSchema usersLines := by
    decide
  have hc : ((parseSQLSchema usersLines).headD ⟨[], []⟩).columns.headD (mkColumn "x" "TEXT")
      ∈ ((parseSQLSchema usersLines).headD ⟨[], []⟩).columns := by
    decide
  exact ⟨_, ht, _, hc, c10_parser_no_primary_key usersLines _ _ ht hc⟩

end BoGo
